import Mathlib

/-!
Shallow embedding of the dkmes fleet-status aggregator frontend
(`src/frontend/src/components/Orchestrator.tsx` and the agent network
graph component), together with theorems settling the spec claims.

Network effects are modelled by passing the outcome of each HTTP call
explicitly: `HttpOutcome β` is either a connection-level error (fetch
rejected: connection refused, timeout, ...) or a response carrying an
`ok` flag and an optionally parsed JSON body (`none` = malformed body,
i.e. `response.json()` threw).  JavaScript numbers are modelled as `ℚ`,
and a JS string field that may be absent/undefined is an
`Option String` (`none` = absent).
-/

namespace DKMES

/-- Outcome of a `fetch` call. `connError` models a rejected promise
(connection refused, timeout); `resp ok body` models a response with the
given `ok` flag, where `body = none` means `response.json()` threw
(malformed body). -/
inductive HttpOutcome (β : Type) where
  | connError : HttpOutcome β
  | resp (ok : Bool) (body : Option β) : HttpOutcome β
deriving DecidableEq, Repr

/-- The JS idiom `x || fb` applied to a possibly-absent string field:
the fallback is used when the field is absent (`undefined`/`null`) or
the empty string (both falsy in JS). -/
def jsOrStr : Option String → String → String
  | none, fb => fb
  | some s, fb => if s = "" then fb else s

/-- The `AgentConfig` from Orchestrator.tsx: a configured peer descriptor. -/
structure AgentConfig where
  port : Nat
  fallbackId : String
  fallbackName : String
  fallbackDomain : String
deriving DecidableEq, Repr, Inhabited

/-- The literal union type `'online' | 'offline'` of `AgentStatus.status`. -/
inductive AgentState where
  | online : AgentState
  | offline : AgentState
deriving DecidableEq, Repr, Inhabited

/-- The `AgentStatus` from Orchestrator.tsx: the per-round status of one peer.
`timestamp` is `Option String` because the online branch copies
`data.timestamp`, which may be absent from the response body. -/
structure AgentStatus where
  agent_id : String
  name : String
  domain : String
  status : AgentState
  port : Nat
  timestamp : Option String
deriving DecidableEq, Repr, Inhabited

/-- Parsed body of a successful `/health` response; each identity field
may be absent. -/
structure HealthBody where
  agent_id : Option String
  agent_name : Option String
  domain : Option String
  timestamp : Option String
deriving DecidableEq, Repr, Inhabited

/-- The `fetchAgentStatus` from Orchestrator.tsx.  On an ok response with a
parseable body it returns an online status with each identity field
taken from the body via `||`-fallback to the config; every other outcome
falls through to the offline return with all fallback fields. -/
def fetchAgentStatus (config : AgentConfig) : HttpOutcome HealthBody → AgentStatus
  | .resp true (some data) =>
      { agent_id := jsOrStr data.agent_id config.fallbackId
        name := jsOrStr data.agent_name config.fallbackName
        domain := jsOrStr data.domain config.fallbackDomain
        port := config.port
        status := .online
        timestamp := data.timestamp }
  | _ =>
      { agent_id := config.fallbackId
        name := config.fallbackName
        domain := config.fallbackDomain
        port := config.port
        status := .offline
        timestamp := some "" }

/-- The `ExchangeLog` from Orchestrator.tsx. `receiver_agent_id` is optional
in the TS interface; `confidence` is a JS number, modelled as `ℚ`. -/
structure ExchangeLog where
  request_id : String
  sender_agent_id : String
  receiver_agent_id : Option String
  domain : String
  query : String
  confidence : ℚ
  timestamp : String
deriving DecidableEq, Repr, Inhabited

/-- Parsed body of a `/api/v1/kep/history` response: `data.exchanges`
may be absent. -/
structure ExchangesBody where
  exchanges : Option (List ExchangeLog)
deriving DecidableEq, Repr, Inhabited

/-- The `fetchExchanges` from Orchestrator.tsx: returns the fetched window
as-is (`data.exchanges || []`), and `(port, [])` on every failure. -/
def fetchExchanges (port : Nat) : HttpOutcome ExchangesBody → Nat × List ExchangeLog
  | .resp true (some data) => (port, data.exchanges.getD [])
  | _ => (port, [])

/-- The `A2ATask.status` from Orchestrator.tsx: `{state, timestamp}`. -/
structure TaskStatusInfo where
  state : String
  timestamp : ℚ
deriving DecidableEq, Repr, Inhabited

/-- The `A2ATask` from Orchestrator.tsx; the `history: any[]` entries are
opaque payloads, modelled as strings. -/
structure A2ATask where
  id : String
  status : TaskStatusInfo
  history : List String
deriving DecidableEq, Repr, Inhabited

/-- The `data.result` of a `tasks/list` JSON-RPC response: `tasks` may be
absent. -/
structure TasksResult where
  tasks : Option (List A2ATask)
deriving DecidableEq, Repr, Inhabited

/-- Parsed body of a `tasks/list` JSON-RPC response: `result` may be
absent (`data.result?.tasks || []`). -/
structure TasksBody where
  result : Option TasksResult
deriving DecidableEq, Repr, Inhabited

/-- The `fetchTasks` from Orchestrator.tsx: `data.result?.tasks || []` on an
ok parseable response, `[]` on every failure. -/
def fetchTasks : HttpOutcome TasksBody → List A2ATask
  | .resp true (some data) =>
      match data.result with
      | some r => r.tasks.getD []
      | none => []
  | _ => []

/-- A fetch outcome is a failure when it is not an ok response with a
parseable body: connection error, non-success HTTP status, or malformed
body. -/
def isFailure {β : Type} : HttpOutcome β → Bool
  | .connError => true
  | .resp false _ => true
  | .resp true none => true
  | .resp true (some _) => false

/-- The state assembled by one `refreshAll` round: the `setAgents`,
`setExchangesByPort` and `setActiveTasks` payloads. -/
structure RoundResult where
  agents : List AgentStatus
  exchangesByPort : List (Nat × List ExchangeLog)
  activeTasks : List A2ATask
deriving DecidableEq, Repr

/-- The `refreshAll` from Orchestrator.tsx, with the network environment
passed explicitly: one `fetchAgentStatus` and one `fetchExchanges` per
configured agent, and one `fetchTasks`; the exchange results are stored
keyed by port. -/
def refreshAll (configs : List AgentConfig)
    (healthNet : AgentConfig → HttpOutcome HealthBody)
    (exchNet : Nat → HttpOutcome ExchangesBody)
    (taskNet : HttpOutcome TasksBody) : RoundResult :=
  { agents := configs.map (fun c => fetchAgentStatus c (healthNet c))
    exchangesByPort := configs.map (fun c => fetchExchanges c.port (exchNet c.port))
    activeTasks := fetchTasks taskNet }

lemma fetchAgentStatus_status (config : AgentConfig) (net : HttpOutcome HealthBody) :
    (fetchAgentStatus config net).status = AgentState.online ∨
    (fetchAgentStatus config net).status = AgentState.offline := by
  cases net with
  | connError => right; rfl
  | resp ok body =>
      cases ok with
      | false => right; rfl
      | true =>
          cases body with
          | none => right; rfl
          | some data => left; rfl

lemma fetchAgentStatus_port (config : AgentConfig) (net : HttpOutcome HealthBody) :
    (fetchAgentStatus config net).port = config.port := by
  cases net with
  | connError => rfl
  | resp ok body =>
      cases ok with
      | false => rfl
      | true => cases body with
          | none => rfl
          | some data => rfl

/-- Claim C1: One `refreshAll` round produces exactly one `AgentStatus`
per configured descriptor — same length, positionally matching ports —
and every produced status is `online` or `offline`; no configured peer
is dropped and no error value stands in place of a status (the round is
a total function into `RoundResult`). -/
theorem refreshAll_one_status_per_config
    (configs : List AgentConfig)
    (healthNet : AgentConfig → HttpOutcome HealthBody)
    (exchNet : Nat → HttpOutcome ExchangesBody)
    (taskNet : HttpOutcome TasksBody) :
    (refreshAll configs healthNet exchNet taskNet).agents.length = configs.length ∧
    (∀ i, i < configs.length →
      ((refreshAll configs healthNet exchNet taskNet).agents.getD i default).port =
        (configs.getD i default).port) ∧
    (∀ a ∈ (refreshAll configs healthNet exchNet taskNet).agents,
      a.status = AgentState.online ∨ a.status = AgentState.offline) := by
  refine ⟨by simp [refreshAll], ?_, ?_⟩
  · intro i hi
    have h1 : (refreshAll configs healthNet exchNet taskNet).agents.getD i default =
        fetchAgentStatus (configs.getD i default) (healthNet (configs.getD i default)) := by
      simp [refreshAll, List.getD_eq_getElem?_getD, List.getElem?_eq_getElem hi]
    rw [h1]
    exact fetchAgentStatus_port _ _
  · intro a ha
    simp only [refreshAll, List.mem_map] at ha
    obtain ⟨c, _, rfl⟩ := ha
    exact fetchAgentStatus_status c (healthNet c)

/-- Witness for C1. -/
theorem refreshAll_one_status_per_config_witness :
    ((refreshAll [⟨8000, "dkmes-alpha", "DKMES Alpha", "knowledge-management"⟩]
        (fun _ => HttpOutcome.connError) (fun _ => HttpOutcome.connError)
        HttpOutcome.connError).agents.getD 0 default).port = 8000 ∧
    AgentStatus.status
        ((refreshAll [⟨8000, "dkmes-alpha", "DKMES Alpha", "knowledge-management"⟩]
          (fun _ => HttpOutcome.connError) (fun _ => HttpOutcome.connError)
          HttpOutcome.connError).agents.getD 0 default) = AgentState.offline := by
  constructor
  · exact (refreshAll_one_status_per_config
      [⟨8000, "dkmes-alpha", "DKMES Alpha", "knowledge-management"⟩]
      (fun _ => HttpOutcome.connError) (fun _ => HttpOutcome.connError)
      HttpOutcome.connError).2.1 0 (by decide)
  · rfl

/-- Claim C2: On every failing probe outcome — connection error, non-ok
response, or ok response with malformed body — `fetchAgentStatus`
returns (rather than raises) an offline status whose identity fields are
the descriptor's fallback values. -/
theorem fetchAgentStatus_failure_offline (config : AgentConfig)
    (net : HttpOutcome HealthBody) (h : isFailure net = true) :
    fetchAgentStatus config net =
      { agent_id := config.fallbackId
        name := config.fallbackName
        domain := config.fallbackDomain
        port := config.port
        status := .offline
        timestamp := some "" } := by
  cases net with
  | connError => rfl
  | resp ok body =>
      cases ok with
      | false => rfl
      | true =>
          cases body with
          | none => rfl
          | some data => simp [isFailure] at h

/-- Witness for C2. -/
theorem fetchAgentStatus_failure_offline_witness :
    isFailure (HttpOutcome.resp (β := HealthBody) false none) = true ∧
    fetchAgentStatus ⟨8001, "agent-beta-aiml", "AI/ML Research Agent",
        "artificial-intelligence"⟩ (HttpOutcome.resp false none) =
      { agent_id := "agent-beta-aiml"
        name := "AI/ML Research Agent"
        domain := "artificial-intelligence"
        port := 8001
        status := .offline
        timestamp := some "" } :=
  ⟨rfl, fetchAgentStatus_failure_offline
    ⟨8001, "agent-beta-aiml", "AI/ML Research Agent", "artificial-intelligence"⟩
    (HttpOutcome.resp false none) rfl⟩

/-- One ReactFlow edge as built by `AgentNetworkGraph` (`initialEdges`):
identifier, endpoints, the fixed `smoothstep` type, the `animated` flag,
and the stroke colour derived from it. -/
structure GraphEdge where
  id : String
  source : String
  target : String
  edgeType : String
  animated : Bool
  stroke : String
deriving DecidableEq, Repr

/-- The `hasExchange` inside `initialEdges`: some exchange links the two
agent ids in either direction (`receiver_agent_id` must be present and
equal; an absent receiver never matches). -/
def hasExchange (exchanges : List ExchangeLog) (sourceId targetId : String) : Bool :=
  exchanges.any (fun ex =>
    (ex.sender_agent_id == sourceId && ex.receiver_agent_id == some targetId) ||
    (ex.sender_agent_id == targetId && ex.receiver_agent_id == some sourceId))

/-- The edge object pushed by `initialEdges` for one ordered pair of
online agents. -/
def mkEdge (exchanges : List ExchangeLog) (sourceId targetId : String) : GraphEdge :=
  { id := sourceId ++ "-" ++ targetId
    source := sourceId
    target := targetId
    edgeType := "smoothstep"
    animated := hasExchange exchanges sourceId targetId
    stroke := if hasExchange exchanges sourceId targetId then "#10b981"
      else "var(--border-color, #333)" }

/-- All ordered pairs `(l[i], l[j])` with `i < j`, in the order of the
double loop `for i; for j = i+1` of `initialEdges`. -/
def offDiagPairs {α : Type} : List α → List (α × α)
  | [] => []
  | x :: xs => xs.map (fun y => (x, y)) ++ offDiagPairs xs

/-- The `const onlineAgents = agents.filter((a) => a.status === 'online')`. -/
def onlineOf (agents : List AgentStatus) : List AgentStatus :=
  agents.filter (fun a => a.status == AgentState.online)

/-- The `initialEdges` from the `AgentNetworkGraph` component: one edge per
`i < j` pair of agents whose status is `online`. -/
def initialEdges (agents : List AgentStatus) (exchanges : List ExchangeLog) :
    List GraphEdge :=
  (offDiagPairs (onlineOf agents)).map
    (fun p => mkEdge exchanges p.1.agent_id p.2.agent_id)

lemma mem_offDiagPairs {α : Type} {l : List α} {p : α × α}
    (hp : p ∈ offDiagPairs l) : p.1 ∈ l ∧ p.2 ∈ l := by
  induction l with
  | nil => simp [offDiagPairs] at hp
  | cons x xs ih =>
      simp only [offDiagPairs, List.mem_append, List.mem_map] at hp
      rcases hp with ⟨y, hy, rfl⟩ | hp
      · exact ⟨List.mem_cons_self _ _, List.mem_cons_of_mem _ hy⟩
      · exact ⟨List.mem_cons_of_mem _ (ih hp).1, List.mem_cons_of_mem _ (ih hp).2⟩

/-- Claim C4: An edge built by `initialEdges` is animated (active) exactly
when some exchange record in the round's combined windows names its two
endpoints as sender and (present) receiver, in either direction. -/
theorem initialEdges_active_iff_exchange
    (agents : List AgentStatus) (exchanges : List ExchangeLog)
    (e : GraphEdge) (he : e ∈ initialEdges agents exchanges) :
    e.animated = true ↔
      ∃ ex ∈ exchanges,
        (ex.sender_agent_id = e.source ∧ ex.receiver_agent_id = some e.target) ∨
        (ex.sender_agent_id = e.target ∧ ex.receiver_agent_id = some e.source) := by
  simp only [initialEdges, List.mem_map] at he
  obtain ⟨p, -, rfl⟩ := he
  simp only [mkEdge, hasExchange, List.any_eq_true, Bool.or_eq_true,
    Bool.and_eq_true, beq_iff_eq]

/-- Sample online agent used in concrete witnesses. -/
def agentA : AgentStatus :=
  { agent_id := "a", name := "A", domain := "d", status := .online,
    port := 8000, timestamp := some "" }

/-- Second sample online agent used in concrete witnesses. -/
def agentB : AgentStatus :=
  { agent_id := "b", name := "B", domain := "d", status := .online,
    port := 8001, timestamp := some "" }

/-- Sample exchange record from `agentA` to `agentB`. -/
def exchAB : ExchangeLog :=
  { request_id := "r1", sender_agent_id := "a", receiver_agent_id := some "b",
    domain := "d", query := "q", confidence := 1/2, timestamp := "t" }

/-- The edge `initialEdges` builds for `agentA`/`agentB` given `exchAB`. -/
def edgeAB : GraphEdge :=
  { id := "a-b", source := "a", target := "b", edgeType := "smoothstep",
    animated := true, stroke := "#10b981" }

lemma mem_offDiagPairs_ne {α : Type} {l : List α} (hnd : l.Nodup) {p : α × α}
    (hp : p ∈ offDiagPairs l) : p.1 ≠ p.2 := by
  induction l with
  | nil => simp [offDiagPairs] at hp
  | cons x xs ih =>
      have hx : x ∉ xs := (List.nodup_cons.mp hnd).1
      simp only [offDiagPairs, List.mem_append, List.mem_map] at hp
      rcases hp with ⟨y, hy, rfl⟩ | hp
      · intro h
        exact hx ((show x = y from h) ▸ hy)
      · exact ih (List.nodup_cons.mp hnd).2 hp

lemma offDiagPairs_map {α β : Type} (f : α → β) (l : List α) :
    offDiagPairs (l.map f) = (offDiagPairs l).map (Prod.map f f) := by
  induction l with
  | nil => rfl
  | cons x xs ih =>
      simp [offDiagPairs, ih, List.map_map, Function.comp_def, Prod.map]

lemma countP_eq_one_of_nodup_mem {α : Type} [DecidableEq α] {l : List α} {b : α}
    (hnd : l.Nodup) (hb : b ∈ l) :
    l.countP (fun y => decide (y = b)) = 1 := by
  induction l with
  | nil => simp at hb
  | cons x xs ih =>
      have hx : x ∉ xs := (List.nodup_cons.mp hnd).1
      have hnd' : xs.Nodup := (List.nodup_cons.mp hnd).2
      rw [List.countP_cons]
      by_cases hxb : x = b
      · subst hxb
        have h0 : xs.countP (fun y => decide (y = x)) = 0 := by
          refine List.countP_eq_zero.mpr ?_
          intro y hy
          simp only [decide_eq_true_eq]
          rintro rfl
          exact hx hy
        simp [h0]
      · have hb' : b ∈ xs := by
          rcases List.mem_cons.mp hb with h | h
          · exact absurd h.symm hxb
          · exact h
        simp [ih hnd' hb', hxb]

lemma countP_offDiagPairs_pair {α : Type} [DecidableEq α] {l : List α} {a b : α}
    (hnd : l.Nodup) (ha : a ∈ l) (hb : b ∈ l) (hab : a ≠ b) :
    (offDiagPairs l).countP
      (fun p => decide ((p.1 = a ∧ p.2 = b) ∨ (p.1 = b ∧ p.2 = a))) = 1 := by
  induction l with
  | nil => simp at ha
  | cons x xs ih =>
      have hx : x ∉ xs := (List.nodup_cons.mp hnd).1
      have hnd' : xs.Nodup := (List.nodup_cons.mp hnd).2
      rw [offDiagPairs, List.countP_append, List.countP_map]
      by_cases hxa : x = a
      · subst hxa
        have hbx : b ∈ xs := by
          rcases List.mem_cons.mp hb with rfl | hb'
          · exact absurd rfl hab
          · exact hb'
        have h1 : xs.countP
            ((fun p : α × α => decide ((p.1 = x ∧ p.2 = b) ∨ (p.1 = b ∧ p.2 = x))) ∘
              fun y => (x, y)) = 1 := by
          rw [show ((fun p : α × α =>
              decide ((p.1 = x ∧ p.2 = b) ∨ (p.1 = b ∧ p.2 = x))) ∘
              fun y => (x, y)) =
              fun y => decide ((x = x ∧ y = b) ∨ (x = b ∧ y = x)) from rfl]
          have hcongr : ∀ y ∈ xs,
              (decide ((x = x ∧ y = b) ∨ (x = b ∧ y = x)) = true ↔
                decide (y = b) = true) := by
            intro y hy
            simp [hab]
          rw [List.countP_congr hcongr]
          exact countP_eq_one_of_nodup_mem hnd' hbx
        have h2 : (offDiagPairs xs).countP
            (fun p : α × α => decide ((p.1 = x ∧ p.2 = b) ∨ (p.1 = b ∧ p.2 = x))) = 0 := by
          refine List.countP_eq_zero.mpr ?_
          intro q hq
          have hq1 : q.1 ∈ xs := (mem_offDiagPairs hq).1
          have hq2 : q.2 ∈ xs := (mem_offDiagPairs hq).2
          simp only [decide_eq_true_eq]
          rintro (⟨h, -⟩ | ⟨-, h⟩)
          · exact hx (h ▸ hq1)
          · exact hx (h ▸ hq2)
        rw [h1, h2]
      · by_cases hxb : x = b
        · subst hxb
          have hax : a ∈ xs := by
            rcases List.mem_cons.mp ha with rfl | ha'
            · exact absurd rfl hxa
            · exact ha'
          have h1 : xs.countP
              ((fun p : α × α => decide ((p.1 = a ∧ p.2 = x) ∨ (p.1 = x ∧ p.2 = a))) ∘
                fun y => (x, y)) = 1 := by
            rw [show ((fun p : α × α =>
                decide ((p.1 = a ∧ p.2 = x) ∨ (p.1 = x ∧ p.2 = a))) ∘
                fun y => (x, y)) =
                fun y => decide ((x = a ∧ y = x) ∨ (x = x ∧ y = a)) from rfl]
            have hcongr : ∀ y ∈ xs,
                (decide ((x = a ∧ y = x) ∨ (x = x ∧ y = a)) = true ↔
                  decide (y = a) = true) := by
              intro y hy
              simp [hxa]
            rw [List.countP_congr hcongr]
            exact countP_eq_one_of_nodup_mem hnd' hax
          have h2 : (offDiagPairs xs).countP
              (fun p : α × α => decide ((p.1 = a ∧ p.2 = x) ∨ (p.1 = x ∧ p.2 = a))) = 0 := by
            refine List.countP_eq_zero.mpr ?_
            intro q hq
            have hq1 : q.1 ∈ xs := (mem_offDiagPairs hq).1
            have hq2 : q.2 ∈ xs := (mem_offDiagPairs hq).2
            simp only [decide_eq_true_eq]
            rintro (⟨-, h⟩ | ⟨h, -⟩)
            · exact hx (h ▸ hq2)
            · exact hx (h ▸ hq1)
          rw [h1, h2]
        · have hax : a ∈ xs := by
            rcases List.mem_cons.mp ha with rfl | ha'
            · exact absurd rfl hxa
            · exact ha'
          have hbx : b ∈ xs := by
            rcases List.mem_cons.mp hb with rfl | hb'
            · exact absurd rfl hxb
            · exact hb'
          have h1 : xs.countP
              ((fun p : α × α => decide ((p.1 = a ∧ p.2 = b) ∨ (p.1 = b ∧ p.2 = a))) ∘
                fun y => (x, y)) = 0 := by
            refine List.countP_eq_zero.mpr ?_
            intro y hy
            simp only [Function.comp_apply, decide_eq_true_eq]
            rintro (⟨h, -⟩ | ⟨h, -⟩)
            · exact hxa h
            · exact hxb h
          rw [h1, ih hnd' hax hbx]

/-- Claim C3: In every built topology: every edge joins two distinct
online agents of the snapshot's peer list (so no edge references an
absent or unreachable peer), and for every unordered pair of distinct
online agents there is exactly one edge in either orientation (no
duplicate a→b and b→a). Peer ids are assumed unique, the registry
invariant. -/
theorem initialEdges_wellformed (agents : List AgentStatus)
    (exchanges : List ExchangeLog)
    (hnd : (agents.map AgentStatus.agent_id).Nodup) :
    (∀ e ∈ initialEdges agents exchanges,
      ∃ a ∈ agents, ∃ b ∈ agents,
        a.status = AgentState.online ∧ b.status = AgentState.online ∧
        e.source = a.agent_id ∧ e.target = b.agent_id ∧
        a.agent_id ≠ b.agent_id) ∧
    (∀ a ∈ agents, ∀ b ∈ agents,
      a.status = AgentState.online → b.status = AgentState.online →
      a.agent_id ≠ b.agent_id →
      (initialEdges agents exchanges).countP
        (fun e => decide ((e.source = a.agent_id ∧ e.target = b.agent_id) ∨
          (e.source = b.agent_id ∧ e.target = a.agent_id))) = 1) := by
  have hids : ((onlineOf agents).map AgentStatus.agent_id).Nodup :=
    hnd.sublist (List.Sublist.map _ (List.filter_sublist agents))
  constructor
  · intro e he
    simp only [initialEdges, List.mem_map] at he
    obtain ⟨p, hp, rfl⟩ := he
    have h1 := (mem_offDiagPairs hp).1
    have h2 := (mem_offDiagPairs hp).2
    rw [onlineOf, List.mem_filter] at h1 h2
    have hne : p.1.agent_id ≠ p.2.agent_id := by
      have hp' : (p.1.agent_id, p.2.agent_id) ∈
          offDiagPairs ((onlineOf agents).map AgentStatus.agent_id) := by
        rw [offDiagPairs_map]
        exact List.mem_map.mpr ⟨p, hp, rfl⟩
      exact mem_offDiagPairs_ne hids hp'
    exact ⟨p.1, h1.1, p.2, h2.1, by simpa using h1.2, by simpa using h2.2,
      rfl, rfl, hne⟩
  · intro a ha b hb hao hbo hab
    have hfa : a ∈ onlineOf agents :=
      List.mem_filter.mpr ⟨ha, by simp [hao]⟩
    have hfb : b ∈ onlineOf agents :=
      List.mem_filter.mpr ⟨hb, by simp [hbo]⟩
    have hA : a.agent_id ∈ (onlineOf agents).map AgentStatus.agent_id :=
      List.mem_map_of_mem _ hfa
    have hB : b.agent_id ∈ (onlineOf agents).map AgentStatus.agent_id :=
      List.mem_map_of_mem _ hfb
    have key := countP_offDiagPairs_pair hids hA hB hab
    rw [offDiagPairs_map, List.countP_map] at key
    rw [initialEdges, List.countP_map]
    exact key

/-- Witness for C3. -/
theorem initialEdges_wellformed_witness :
    (agentA ∈ [agentA, agentB] ∧
      (initialEdges [agentA, agentB] [exchAB]).countP
        (fun e => decide ((e.source = agentA.agent_id ∧ e.target = agentB.agent_id) ∨
          (e.source = agentB.agent_id ∧ e.target = agentA.agent_id))) = 1) ∧
    (∃ a ∈ [agentA, agentB], ∃ b ∈ [agentA, agentB],
      a.status = AgentState.online ∧ b.status = AgentState.online ∧
      edgeAB.source = a.agent_id ∧ edgeAB.target = b.agent_id ∧
      a.agent_id ≠ b.agent_id) := by
  have h := initialEdges_wellformed [agentA, agentB] [exchAB] (by decide)
  refine ⟨⟨by decide, ?_⟩, ?_⟩
  · exact h.2 agentA (by decide) agentB (by decide) (by decide) (by decide) (by decide)
  · exact h.1 edgeAB (by decide)

/-- Witness for C4. -/
theorem initialEdges_active_iff_exchange_witness :
    edgeAB ∈ initialEdges [agentA, agentB] [exchAB] ∧
    (∃ ex ∈ [exchAB],
        (ex.sender_agent_id = edgeAB.source ∧
          ex.receiver_agent_id = some edgeAB.target) ∨
        (ex.sender_agent_id = edgeAB.target ∧
          ex.receiver_agent_id = some edgeAB.source)) := by
  have hmem : edgeAB ∈ initialEdges [agentA, agentB] [exchAB] := by decide
  exact ⟨hmem,
    (initialEdges_active_iff_exchange [agentA, agentB] [exchAB] edgeAB hmem).mp rfl⟩

/-- A configured default descriptor from `DEFAULT_AGENT_CONFIGS`. -/
def cfgAlpha : AgentConfig :=
  { port := 8000, fallbackId := "dkmes-alpha", fallbackName := "DKMES Alpha",
    fallbackDomain := "knowledge-management" }

/-- An exchange record whose confidence lies outside `[0,1]`. -/
def badRecord : ExchangeLog :=
  { request_id := "r2", sender_agent_id := "a", receiver_agent_id := some "b",
    domain := "d", query := "q", confidence := 3/2, timestamp := "t" }

/-- Counterexample for C5: A round whose history endpoint returns a
record with confidence `3/2` stores that record unchanged: the stored
window contains an `ExchangeLog` with confidence outside `[0,1]`, so the
claimed clamping does not exist in the code. -/
theorem confidence_not_clamped_cex :
    (refreshAll [cfgAlpha] (fun _ => HttpOutcome.connError)
        (fun _ => HttpOutcome.resp true (some { exchanges := some [badRecord] }))
        HttpOutcome.connError).exchangesByPort = [(8000, [badRecord])] ∧
    ¬ (badRecord.confidence ≤ 1) := by
  refine ⟨rfl, ?_⟩
  show ¬ ((3 : ℚ)/2 ≤ 1)
  norm_num

/-- Amended C5: `fetchExchanges` stores the fetched window exactly
as returned — no clamping of confidence — and `refreshAll` keys each
fetched window by port unchanged, so an out-of-range confidence is
propagated as-is to consumers. -/
theorem fetchExchanges_no_clamp (port : Nat) (rs : List ExchangeLog)
    (configs : List AgentConfig)
    (healthNet : AgentConfig → HttpOutcome HealthBody)
    (exchNet : Nat → HttpOutcome ExchangesBody)
    (taskNet : HttpOutcome TasksBody) :
    (fetchExchanges port (HttpOutcome.resp true (some { exchanges := some rs }))).2
        = rs ∧
    (refreshAll configs healthNet exchNet taskNet).exchangesByPort =
      configs.map (fun c => fetchExchanges c.port (exchNet c.port)) :=
  ⟨rfl, rfl⟩

/-- The component state touched by the `addAgent` handler: the
`agentConfigs`, `newAgentPort` and `showAddAgent` `useState` slots. -/
structure OrchState where
  agentConfigs : List AgentConfig
  newAgentPort : String
  showAddAgent : Bool
deriving DecidableEq, Repr

/-- JS `parseInt` on the port input: parse the leading run of digits,
`none` for `NaN` (no leading digit). -/
def parseIntJs (s : String) : Option Nat :=
  let ds := s.toList.takeWhile Char.isDigit
  if ds.isEmpty then none
  else some (ds.foldl (fun acc c => 10 * acc + (c.toNat - 48)) 0)

/-- The `addAgent` from Orchestrator.tsx: parse the entered port; when it is
truthy (not `NaN`, not `0`) and no configured descriptor already has
that port, append the full new descriptor and reset the input and
modal; otherwise do nothing at all. -/
def addAgent (s : OrchState) : OrchState :=
  match parseIntJs s.newAgentPort with
  | none => s
  | some port =>
      if port != 0 && !(s.agentConfigs.any (fun c => c.port == port)) then
        { agentConfigs := s.agentConfigs ++
            [{ port := port, fallbackId := "agent-" ++ toString port,
               fallbackName := "Agent :" ++ toString port,
               fallbackDomain := "unknown" }]
          newAgentPort := ""
          showAddAgent := false }
      else s

/-- The value the `addAgent` handler hands back to its caller: every
exit path of the TS function returns `undefined` and nothing is thrown,
so the caller-visible error channel is constantly `none`. -/
def addAgentError (s : OrchState) : Option String := none

/-- Concrete state whose pending input duplicates a configured port. -/
def dupState : OrchState :=
  { agentConfigs := [cfgAlpha], newAgentPort := "8000", showAddAgent := true }

/-- Counterexample for C6: Adding a duplicate port leaves the registry
unchanged, but no `ValidationError` (no error value at all) reaches the
caller: the request is silently ignored. -/
theorem addAgent_duplicate_silent_cex :
    (addAgent dupState).agentConfigs = dupState.agentConfigs ∧
    ¬ ((addAgentError dupState).isSome = true) := by
  exact ⟨by decide, by decide⟩

/-- Amended C6: For a parsed nonzero port: if it duplicates a
configured descriptor's port the whole state is left unchanged and the
caller receives no error value; if it is fresh, the full descriptor is
appended in one state update. -/
theorem addAgent_correct (s : OrchState) (p : Nat)
    (hp : parseIntJs s.newAgentPort = some p) (hp0 : p ≠ 0) :
    ((s.agentConfigs.any (fun c => c.port == p)) = true →
      addAgent s = s ∧ addAgentError s = none) ∧
    ((s.agentConfigs.any (fun c => c.port == p)) = false →
      (addAgent s).agentConfigs = s.agentConfigs ++
        [{ port := p, fallbackId := "agent-" ++ toString p,
           fallbackName := "Agent :" ++ toString p,
           fallbackDomain := "unknown" }]) := by
  constructor
  · intro hdup
    refine ⟨?_, rfl⟩
    unfold addAgent
    rw [hp]
    simp [hdup]
  · intro hfresh
    unfold addAgent
    rw [hp]
    simp [hfresh, hp0]

/-- Witness for C6. -/
theorem addAgent_correct_witness :
    (addAgent dupState = dupState ∧ addAgentError dupState = none) ∧
    (addAgent { dupState with newAgentPort := "8002" }).agentConfigs =
      [cfgAlpha,
       { port := 8002, fallbackId := "agent-8002",
         fallbackName := "Agent :8002", fallbackDomain := "unknown" }] := by
  constructor
  · exact (addAgent_correct dupState 8000 (by decide) (by decide)).1 (by decide)
  · have h := (addAgent_correct { dupState with newAgentPort := "8002" } 8002
      (by decide) (by decide)).2 (by decide)
    simpa [dupState] using h

/-- The refresh requests the Orchestrator component can receive. -/
inductive RefreshEvent where
  | intervalTick : RefreshEvent
  | refreshClick : RefreshEvent
  | roundFinish : RefreshEvent
deriving DecidableEq, Repr

/-- Scheduler state: how many `refreshAll` invocations are currently
executing, and the `loading` flag. -/
structure SchedState where
  inFlight : Nat
  loading : Bool
deriving DecidableEq, Repr

/-- One scheduler transition, read off the Orchestrator code:
`setInterval(refreshAll, 3000)` invokes `refreshAll` unconditionally and
`refreshAll` itself contains no in-flight guard (its first statement is
`setLoading(true)`), so a tick always starts a round; the Refresh button
has `disabled={loading}`, so a click starts a round only when `loading`
is false; every finishing round runs `setLoading(false)`. -/
def schedStep (s : SchedState) : RefreshEvent → SchedState
  | .intervalTick => { inFlight := s.inFlight + 1, loading := true }
  | .refreshClick =>
      if s.loading then s else { inFlight := s.inFlight + 1, loading := true }
  | .roundFinish => { inFlight := s.inFlight - 1, loading := false }

/-- Counterexample for C7: With one round already executing, the 3-second
interval firing starts a second concurrent round: the no-second-round
(coalescing) guarantee fails on the scheduled-interval path. -/
theorem interval_second_round_cex :
    ¬ ((schedStep { inFlight := 1, loading := true }
        RefreshEvent.intervalTick).inFlight ≤ 1) := by
  decide

/-- Amended C7: While a round is in flight (`loading = true`) a
manual click on the disabled Refresh button starts nothing — at most the
running round continues — but an interval tick unconditionally starts
one more concurrent round. -/
theorem refresh_click_blocked_interval_unguarded (s : SchedState)
    (h : s.loading = true) :
    schedStep s RefreshEvent.refreshClick = s ∧
    (schedStep s RefreshEvent.intervalTick).inFlight = s.inFlight + 1 := by
  refine ⟨?_, rfl⟩
  simp [schedStep, h]

/-- Witness for C7. -/
theorem refresh_click_blocked_interval_unguarded_witness :
    schedStep { inFlight := 1, loading := true } RefreshEvent.refreshClick =
      { inFlight := 1, loading := true } ∧
    (schedStep { inFlight := 1, loading := true }
      RefreshEvent.intervalTick).inFlight = 2 :=
  refresh_click_blocked_interval_unguarded { inFlight := 1, loading := true } rfl

/-- Claim C8: Every failing exchange-history fetch yields `(port, [])` and
every failing task-registry call yields `[]`; neither failure escapes
its fetch function, and a round run against such failing channels still
completes with one status per configured peer (partial data). -/
theorem fetch_failures_yield_empty (port : Nat)
    (ne : HttpOutcome ExchangesBody) (nt : HttpOutcome TasksBody)
    (he : isFailure ne = true) (ht : isFailure nt = true) :
    fetchExchanges port ne = (port, []) ∧ fetchTasks nt = [] ∧
    ∀ (configs : List AgentConfig)
      (healthNet : AgentConfig → HttpOutcome HealthBody),
      (refreshAll configs healthNet (fun _ => ne) nt).agents.length =
          configs.length ∧
      (refreshAll configs healthNet (fun _ => ne) nt).exchangesByPort =
          configs.map (fun c => (c.port, [])) ∧
      (refreshAll configs healthNet (fun _ => ne) nt).activeTasks = [] := by
  have hex : fetchExchanges port ne = (port, []) := by
    cases ne with
    | connError => rfl
    | resp ok body =>
        cases ok with
        | false => rfl
        | true =>
            cases body with
            | none => rfl
            | some data => simp [isFailure] at he
  have hex' : ∀ q : Nat, fetchExchanges q ne = (q, []) := by
    intro q
    cases ne with
    | connError => rfl
    | resp ok body =>
        cases ok with
        | false => rfl
        | true =>
            cases body with
            | none => rfl
            | some data => simp [isFailure] at he
  have htk : fetchTasks nt = [] := by
    cases nt with
    | connError => rfl
    | resp ok body =>
        cases ok with
        | false => rfl
        | true =>
            cases body with
            | none => rfl
            | some data => simp [isFailure] at ht
  refine ⟨hex, htk, ?_⟩
  intro configs healthNet
  refine ⟨by simp [refreshAll], ?_, ?_⟩
  · simp only [refreshAll]
    exact List.map_congr_left (fun c _ => hex' c.port)
  · simpa [refreshAll] using htk

/-- Witness for C8. -/
theorem fetch_failures_yield_empty_witness :
    fetchExchanges 8001 (HttpOutcome.resp false none) = (8001, []) ∧
    fetchTasks HttpOutcome.connError = [] ∧
    (refreshAll [cfgAlpha] (fun _ => HttpOutcome.connError)
        (fun _ => HttpOutcome.resp false none)
        HttpOutcome.connError).activeTasks = [] := by
  have h := fetch_failures_yield_empty 8001
    (HttpOutcome.resp false none) HttpOutcome.connError rfl rfl
  exact ⟨h.1, h.2.1,
    (h.2.2 [cfgAlpha] (fun _ => HttpOutcome.connError)).2.2⟩

/-- The spec's internal task-state enum
`{Submitted, Working, Completed, Failed, Unknown}`. -/
inductive TaskState where
  | Submitted : TaskState
  | Working : TaskState
  | Completed : TaskState
  | Failed : TaskState
  | Unknown : TaskState
deriving DecidableEq, Repr

/-- The fixed table from external state labels to the internal enum, as
the spec words it: the four recognised `TASK_STATE_*` labels, everything
else `Unknown`. -/
def labelToState (s : String) : TaskState :=
  if s = "TASK_STATE_COMPLETED" then .Completed
  else if s = "TASK_STATE_FAILED" then .Failed
  else if s = "TASK_STATE_WORKING" then .Working
  else if s = "TASK_STATE_SUBMITTED" then .Submitted
  else .Unknown

/-- The colour the dashboard assigns to each internal state. -/
def stateColor : TaskState → String
  | .Completed => "#10b981"
  | .Failed => "#ef4444"
  | .Working => "#3b82f6"
  | .Submitted => "#f59e0b"
  | .Unknown => "#6b7280"

/-- The `getTaskStateColor` from Orchestrator.tsx: the `switch` on the raw
external label, with the default arm for every unrecognised label. -/
def getTaskStateColor (state : String) : String :=
  if state = "TASK_STATE_COMPLETED" then "#10b981"
  else if state = "TASK_STATE_FAILED" then "#ef4444"
  else if state = "TASK_STATE_WORKING" then "#3b82f6"
  else if state = "TASK_STATE_SUBMITTED" then "#f59e0b"
  else "#6b7280"

/-- Claim C9: The code's handling of external task-state labels factors
through the fixed five-value table `labelToState` (which sends every
unrecognised label to `Unknown`), and the per-state colours are
pairwise distinct, so the factoring is unique; the mapping is total, so
no label can cause a failure. -/
theorem getTaskStateColor_via_fixed_table :
    (∀ s, getTaskStateColor s = stateColor (labelToState s)) ∧
    (∀ t u : TaskState, stateColor t = stateColor u → t = u) := by
  constructor
  · intro s
    unfold getTaskStateColor labelToState stateColor
    split_ifs <;> rfl
  · intro t u h
    cases t <;> cases u <;> first | rfl | (exact absurd h (by decide))

/-- Witness for C9. -/
theorem getTaskStateColor_via_fixed_table_witness :
    getTaskStateColor "TASK_STATE_BOGUS" =
      stateColor (labelToState "TASK_STATE_BOGUS") ∧
    TaskState.Completed = TaskState.Completed :=
  ⟨getTaskStateColor_via_fixed_table.1 "TASK_STATE_BOGUS",
   getTaskStateColor_via_fixed_table.2 TaskState.Completed TaskState.Completed rfl⟩

lemma jsOrStr_falsy {o : Option String} (fb : String)
    (h : o = none ∨ o = some "") : jsOrStr o fb = fb := by
  rcases h with rfl | rfl
  · rfl
  · simp [jsOrStr]

lemma jsOrStr_truthy {o : Option String} {v : String} (fb : String)
    (h : o = some v) (hv : v ≠ "") : jsOrStr o fb = v := by
  subst h
  simp [jsOrStr, hv]

/-- Claim C10: On a successful probe response the fallback is applied per
identity field: each of `agent_id`, `name`, `domain` comes from the
response when that field is present and non-empty, and from the
descriptor's fallback when it is absent or empty — while the status is
still `online`. A single status can therefore mix reported and fallback
fields. -/
theorem fetchAgentStatus_success_per_field (config : AgentConfig)
    (b : HealthBody) :
    (fetchAgentStatus config (HttpOutcome.resp true (some b))).status =
        AgentState.online ∧
    ((b.agent_id = none ∨ b.agent_id = some "") →
      (fetchAgentStatus config (HttpOutcome.resp true (some b))).agent_id =
        config.fallbackId) ∧
    (∀ v, b.agent_id = some v → v ≠ "" →
      (fetchAgentStatus config (HttpOutcome.resp true (some b))).agent_id = v) ∧
    ((b.agent_name = none ∨ b.agent_name = some "") →
      (fetchAgentStatus config (HttpOutcome.resp true (some b))).name =
        config.fallbackName) ∧
    (∀ v, b.agent_name = some v → v ≠ "" →
      (fetchAgentStatus config (HttpOutcome.resp true (some b))).name = v) ∧
    ((b.domain = none ∨ b.domain = some "") →
      (fetchAgentStatus config (HttpOutcome.resp true (some b))).domain =
        config.fallbackDomain) ∧
    (∀ v, b.domain = some v → v ≠ "" →
      (fetchAgentStatus config (HttpOutcome.resp true (some b))).domain = v) :=
  ⟨rfl,
   fun h => jsOrStr_falsy _ h,
   fun v hv hne => jsOrStr_truthy _ hv hne,
   fun h => jsOrStr_falsy _ h,
   fun v hv hne => jsOrStr_truthy _ hv hne,
   fun h => jsOrStr_falsy _ h,
   fun v hv hne => jsOrStr_truthy _ hv hne⟩

/-- Witness for C10: A response reporting a non-empty `agent_id`, an
empty `agent_name` and no `domain` yields an online status mixing the
reported id with the two fallback identity fields. -/
theorem fetchAgentStatus_success_per_field_witness :
    (fetchAgentStatus cfgAlpha (HttpOutcome.resp true
        (some { agent_id := some "live-alpha", agent_name := some "",
                domain := none, timestamp := some "2024" }))).status =
      AgentState.online ∧
    (fetchAgentStatus cfgAlpha (HttpOutcome.resp true
        (some { agent_id := some "live-alpha", agent_name := some "",
                domain := none, timestamp := some "2024" }))).agent_id =
      "live-alpha" ∧
    (fetchAgentStatus cfgAlpha (HttpOutcome.resp true
        (some { agent_id := some "live-alpha", agent_name := some "",
                domain := none, timestamp := some "2024" }))).name =
      cfgAlpha.fallbackName ∧
    (fetchAgentStatus cfgAlpha (HttpOutcome.resp true
        (some { agent_id := some "live-alpha", agent_name := some "",
                domain := none, timestamp := some "2024" }))).domain =
      cfgAlpha.fallbackDomain := by
  have h := fetchAgentStatus_success_per_field cfgAlpha
    { agent_id := some "live-alpha", agent_name := some "",
      domain := none, timestamp := some "2024" }
  exact ⟨h.1, h.2.2.1 "live-alpha" rfl (by decide),
    h.2.2.2.1 (Or.inr rfl), h.2.2.2.2.2.1 (Or.inl rfl)⟩

end DKMES
